import Mathlib

/-!
Verification of the typst-mcp security layer against its specification.

This file shallowly embeds the security-relevant functions of
`src/typst_mcp/package_docs.py` and `src/typst_mcp/sandbox.py` as executable
Lean definitions and proves the spec's testable properties about them.

Python strings are modelled as Lean `String`; machine integers do not occur
(all arithmetic is on unbounded `Nat`/`ℚ`, exactly like Python's `int`);
functions that raise exceptions return `Except`/`Option`.
-/

set_option autoImplicit false

namespace TypstMcp

/-- Decidable equality for `Except`, used to evaluate the models on concrete
inputs. -/
instance instDecEqExcept {ε α : Type} [DecidableEq ε] [DecidableEq α] :
    DecidableEq (Except ε α) := fun a b =>
  match a, b with
  | .error e, .error f =>
    if h : e = f then .isTrue (by rw [h])
    else .isFalse (by intro hh; cases hh; exact h rfl)
  | .ok x, .ok y =>
    if h : x = y then .isTrue (by rw [h])
    else .isFalse (by intro hh; cases hh; exact h rfl)
  | .error _, .ok _ => .isFalse (by intro hh; cases hh)
  | .ok _, .error _ => .isFalse (by intro hh; cases hh)

/-! ## Python string helpers -/

/-- Substring test: Python `sub in s` for strings.  `hasSublist sub l` is true
iff `sub` occurs as a contiguous sublist of `l`. -/
def hasSublist (sub : List Char) : List Char → Bool
  | [] => sub.isEmpty
  | c :: t => sub.isPrefixOf (c :: t) || hasSublist sub t

/-- Python `sub in s` (substring containment). -/
def strContains (s sub : String) : Bool :=
  hasSublist sub.data s.data

/-- Python `str.lower()`, restricted to ASCII (`Char.toLower` maps only
`A`-`Z`; Python's `lower` agrees with this on ASCII strings, which is the
domain all the fixed hostname lists live in). -/
def pyLower (s : String) : String :=
  (s.data.map Char.toLower).asString

/-- Python `s.rpartition(sep)[2]`: the characters after the last occurrence
of `sep`, or all of `s` when `sep` does not occur. -/
def afterLastChar (sep : Char) (s : String) : String :=
  ((s.data.reverse.takeWhile (fun c => c != sep)).reverse).asString

/-- Python `s.partition(sep)`: `(before, sep-found?, after)` for the first
occurrence of `sep`. -/
def partitionChar (sep : Char) (s : String) : String × Bool × String :=
  let pre := s.data.takeWhile (fun c => c != sep)
  let rest := s.data.drop pre.length
  match rest with
  | [] => (s, false, "")
  | _ :: t => (pre.asString, true, t.asString)

/-- Python `str.strip()` (whitespace at both ends). -/
def pyStrip (s : String) : String :=
  ((s.data.dropWhile Char.isWhitespace).reverse.dropWhile Char.isWhitespace).reverse.asString

/-- Python `s.split(sep)` for a one-character separator: always returns at
least one (possibly empty) piece. -/
def splitOnChar (sep : Char) : List Char → List (List Char)
  | [] => [[]]
  | c :: t =>
    if c = sep then [] :: splitOnChar sep t
    else
      match splitOnChar sep t with
      | h :: r => (c :: h) :: r
      | [] => [[c]]

/-- Python `s.endswith(suffix)`. -/
def strEndsWith (s suffix : String) : Bool :=
  suffix.data.isSuffixOf s.data

/-- Python `re.match`'s `$` (without `re.MULTILINE`) matches at the end of
the string and also just before one trailing newline, so an anchored
pattern is checked against the string with a single trailing `'\n'`
removed. -/
def stripTrailingNewline (l : List Char) : List Char :=
  if l.getLast? = some '\n' then l.dropLast else l

/-! ## `validate_package_name` (package_docs.py lines 292-320) -/

/-- The character class `[a-z0-9]` of the package-name regex. -/
def isLowerAlnum (c : Char) : Bool :=
  (decide ('a' ≤ c) && decide (c ≤ 'z')) || (decide ('0' ≤ c) && decide (c ≤ '9'))

/-- The pattern body `[a-z0-9][a-z0-9-]*` on a character list: nonempty,
first char in `[a-z0-9]`, every later char in `[a-z0-9-]`. -/
def packageNameCore (l : List Char) : Bool :=
  match l with
  | [] => false
  | c :: rest => isLowerAlnum c && rest.all (fun d => isLowerAlnum d || d == '-')

/-- `re.match(r'^[a-z0-9][a-z0-9-]*$', name)`: `re.match` anchors at the
start, and `$` matches at the end of the string or just before one
trailing newline — so the pattern body is checked on the string with a
single trailing newline removed (e.g. Python accepts `"abc\n"`). -/
def matchesPackageNameRe (s : String) : Bool :=
  packageNameCore (stripTrailingNewline s.data)

/-- The package-name grammar exactly as the spec states it — the regex
`^[a-z0-9][a-z0-9-]*$` read as a formal language with a strict end anchor.
A comparison definition following the spec's words, used to state where
the source's Python `$` semantics differs from it. -/
def specPackageNameGrammar (s : String) : Bool :=
  packageNameCore s.data

/-- `validate_package_name` from package_docs.py: regex check, then the
path-traversal substring checks, then the length cap; returns the name
unchanged on success, raises `ValueError` (modelled as `.error`) otherwise. -/
def validate_package_name (name : String) : Except String String :=
  if !matchesPackageNameRe name then
    .error "Invalid package name format"
  else if strContains name ".." || strContains name "/" || strContains name "\\" then
    .error "Path traversal detected in package name"
  else if name.length > 100 then
    .error "Package name too long (max 100 characters)"
  else
    .ok name

/-! ## `validate_version` (package_docs.py lines 323-346) -/

/-- The character class `[a-z0-9.]` of the version-suffix regex. -/
def isVerSuffixChar (c : Char) : Bool :=
  (decide ('a' ≤ c) && decide (c ≤ 'z')) || c.isDigit || c == '.'

/-- `re.match(r'^[0-9]+\.[0-9]+\.[0-9]+(-[a-z0-9.]+)?$', version)`.  As
with the package-name regex, Python's `$` also matches just before one
trailing newline, so the pattern body is checked on the newline-stripped
string (Python accepts `"0.2.2\n"`). -/
def matchesVersionRe (s : String) : Bool :=
  let l := stripTrailingNewline s.data
  let d1 := l.takeWhile Char.isDigit
  let r1 := l.drop d1.length
  !d1.isEmpty &&
    match r1 with
    | '.' :: r2 =>
      let d2 := r2.takeWhile Char.isDigit
      let r3 := r2.drop d2.length
      !d2.isEmpty &&
        match r3 with
        | '.' :: r4 =>
          let d3 := r4.takeWhile Char.isDigit
          let r5 := r4.drop d3.length
          !d3.isEmpty &&
            (match r5 with
             | [] => true
             | '-' :: suf => !suf.isEmpty && suf.all isVerSuffixChar
             | _ => false)
        | _ => false
    | _ => false

/-- `validate_version` from package_docs.py. -/
def validate_version (version : String) : Except String String :=
  if !matchesVersionRe version then
    .error "Invalid version format"
  else if strContains version ".." || strContains version "/" || strContains version "\\" then
    .error "Path traversal detected in version"
  else
    .ok version

/-! ## CPython `ipaddress` model (Python 3.11 semantics)

`is_safe_url` calls `ipaddress.ip_address(hostname)` and the classification
properties `is_private`, `is_loopback`, `is_link_local`, `is_reserved`,
`is_multicast`.  The parser and the network constants below are transcribed
from CPython 3.11's `ipaddress` module. -/

/-- `_parse_octet`: decimal digits only, at most 3 characters, no leading
zeros, value at most 255. -/
def parseOctet (s : List Char) : Option Nat :=
  if s.isEmpty then none
  else if !s.all Char.isDigit then none
  else if s.length > 3 then none
  else if s != ['0'] && s.head? == some '0' then none
  else
    let n := s.foldl (fun acc c => acc * 10 + (c.toNat - 48)) 0
    if n > 255 then none else some n

/-- `IPv4Address._ip_int_from_string`: exactly four `.`-separated octets. -/
def parseIPv4 (s : String) : Option Nat :=
  if s.isEmpty then none
  else
    let octets := splitOnChar '.' s.data
    if octets.length != 4 then none
    else
      (octets.mapM parseOctet).map
        (fun bs => bs.foldl (fun acc b => acc * 256 + b) 0)

/-- The hex-digit class accepted by `_parse_hextet` (and by the IPvFuture
bracket-host regex). -/
def isPyHexDigit (c : Char) : Bool :=
  c.isDigit || (decide ('a' ≤ c) && decide (c ≤ 'f')) || (decide ('A' ≤ c) && decide (c ≤ 'F'))

/-- Numeric value of a hex digit. -/
def hexVal (c : Char) : Nat :=
  if c.isDigit then c.toNat - 48
  else if decide ('a' ≤ c) && decide (c ≤ 'f') then c.toNat - 87
  else c.toNat - 55

/-- `_parse_hextet`: hex digits only, at most 4 characters, nonempty
(`int('', 16)` raises `ValueError`). -/
def parseHextet (s : List Char) : Option Nat :=
  if !s.all isPyHexDigit then none
  else if s.length > 4 then none
  else if s.isEmpty then none
  else some (s.foldl (fun acc c => acc * 16 + hexVal c) 0)

/-- Lowercase hex digits of `n` (`'%x' % n`), used when an IPv4-style suffix
of an IPv6 address is rewritten into two hextets. -/
def natToHexChars (n : Nat) : List Char :=
  Nat.toDigits 16 n

/-- Second half of `IPv6Address._ip_int_from_string`: the `::`-compression
logic over the already-split (and IPv4-suffix-rewritten) parts. -/
def ipv6FromParts (parts : List (List Char)) : Option Nat :=
  match parts.head?, parts.getLast? with
  | some first, some last =>
    let n := parts.length
    if n > 9 then none
    else
      let interior := (parts.drop 1).take (n - 2)
      if 1 < interior.countP List.isEmpty then none
      else
        let hiLoSkip : Option (Nat × Nat × Nat) :=
          if interior.any List.isEmpty then
            let skipIndex := interior.findIdx List.isEmpty + 1
            let pHi0 := skipIndex
            let pLo0 := n - skipIndex - 1
            let adjust : Nat × Bool → Option Nat := fun (p, isEmp) =>
              if isEmp then (if p - 1 = 0 then some 0 else none) else some p
            match adjust (pHi0, first.isEmpty), adjust (pLo0, last.isEmpty) with
            | some pHi, some pLo =>
              if 8 - (pHi + pLo) < 1 then none else some (pHi, pLo, 8 - (pHi + pLo))
            | _, _ => none
          else
            if n != 8 then none
            else if first.isEmpty then none
            else if last.isEmpty then none
            else some (8, 0, 0)
        match hiLoSkip with
        | none => none
        | some (pHi, pLo, skipped) =>
          match (parts.take pHi).mapM parseHextet, (parts.drop (n - pLo)).mapM parseHextet with
          | some his, some los =>
            let hi := his.foldl (fun acc h => acc * 65536 + h) 0
            let lo := los.foldl (fun acc h => acc * 65536 + h) 0
            some ((hi <<< (16 * (skipped + pLo))) + lo)
          | _, _ => none
  | _, _ => none

/-- `IPv6Address._ip_int_from_string`: split on `:`, rewrite a trailing
IPv4-style suffix into two hextets, then assemble. -/
def ipv6IntFromString (s : String) : Option Nat :=
  if s.isEmpty then none
  else
    let parts := splitOnChar ':' s.data
    if parts.length < 3 then none
    else
      match parts.getLast? with
      | none => none
      | some last =>
        if last.contains '.' then
          match parseIPv4 last.asString with
          | none => none
          | some v4 =>
            ipv6FromParts (parts.dropLast ++
              [natToHexChars ((v4 >>> 16) % 65536), natToHexChars (v4 % 65536)])
        else ipv6FromParts parts

/-- `IPv6Address._split_scope_id`: split a `%zone` suffix off; the zone must
be nonempty and contain no further `%`. Returns the address part. -/
def splitScopeId (s : String) : Option String :=
  let (addr, sep, scope) := partitionChar '%' s
  if !sep then some s
  else if scope.isEmpty || scope.data.contains '%' then none
  else some addr

/-- A parsed IP address as returned by `ipaddress.ip_address`. -/
inductive IPAddr where
  | v4 (ip : Nat)
  | v6 (ip : Nat)
deriving DecidableEq

/-- `ipaddress.ip_address(s)`: try IPv4 first, then IPv6 (rejecting `/` and
splitting a scope id, per `IPv6Address.__init__`). -/
def ip_address? (s : String) : Option IPAddr :=
  match parseIPv4 s with
  | some v => some (.v4 v)
  | none =>
    if s.data.contains '/' then none
    else
      match splitScopeId s with
      | none => none
      | some addr => (ipv6IntFromString addr).map .v6

/-- Membership of an address in a CIDR network of width `w`:
`ip >> (w - prefix) == base >> (w - prefix)`. -/
def inNet (w ip base pfx : Nat) : Bool :=
  ip >>> (w - pfx) == base >>> (w - pfx)

/-- CPython 3.11 `IPv4Address._constants._private_networks`. -/
def v4PrivateNets : List (Nat × Nat) :=
  [(0x00000000, 8), (0x0A000000, 8), (0x7F000000, 8), (0xA9FE0000, 16),
   (0xAC100000, 12), (0xC0000000, 29), (0xC00000AA, 31), (0xC0000200, 24),
   (0xC0A80000, 16), (0xC6120000, 15), (0xC6336400, 24), (0xCB007100, 24),
   (0xF0000000, 4), (0xFFFFFFFF, 32)]

/-- CPython 3.11 `IPv6Address._constants._private_networks`. -/
def v6PrivateNets : List (Nat × Nat) :=
  [(0x1, 128), (0x0, 128), (0xffff00000000, 96),
   (0x01000000000000000000000000000000, 64),
   (0x20010000000000000000000000000000, 23),
   (0x20010002000000000000000000000000, 48),
   (0x20010db8000000000000000000000000, 32),
   (0x20010010000000000000000000000000, 28),
   (0xfc000000000000000000000000000000, 7),
   (0xfe800000000000000000000000000000, 10)]

/-- CPython 3.11 `IPv6Address._constants._reserved_networks`. -/
def v6ReservedNets : List (Nat × Nat) :=
  [(0x0, 8), (0x01000000000000000000000000000000, 8),
   (0x02000000000000000000000000000000, 7),
   (0x04000000000000000000000000000000, 6),
   (0x08000000000000000000000000000000, 5),
   (0x10000000000000000000000000000000, 4),
   (0x40000000000000000000000000000000, 3),
   (0x60000000000000000000000000000000, 3),
   (0x80000000000000000000000000000000, 3),
   (0xa0000000000000000000000000000000, 3),
   (0xc0000000000000000000000000000000, 3),
   (0xe0000000000000000000000000000000, 4),
   (0xf0000000000000000000000000000000, 5),
   (0xf8000000000000000000000000000000, 6),
   (0xfe000000000000000000000000000000, 9)]

/-- `IPv6Address.ipv4_mapped`: `Some (low 32 bits)` iff `ip >> 32 == 0xFFFF`. -/
def ipv4Mapped (ip : Nat) : Option Nat :=
  if ip >>> 32 == 0xFFFF then some (ip % 4294967296) else none

/-- `ip.is_private` (3.11: IPv4 via the private-network list; IPv6 defers to
the mapped IPv4 address when one exists, else uses the IPv6 list). -/
def IPAddr.is_private : IPAddr → Bool
  | .v4 ip => v4PrivateNets.any fun bp => inNet 32 ip bp.1 bp.2
  | .v6 ip =>
    match ipv4Mapped ip with
    | some m4 => v4PrivateNets.any fun bp => inNet 32 m4 bp.1 bp.2
    | none => v6PrivateNets.any fun bp => inNet 128 ip bp.1 bp.2

/-- `ip.is_loopback` (IPv4: `127.0.0.0/8`; IPv6: exactly `::1`). -/
def IPAddr.is_loopback : IPAddr → Bool
  | .v4 ip => inNet 32 ip 0x7F000000 8
  | .v6 ip => ip == 1

/-- `ip.is_link_local` (IPv4: `169.254.0.0/16`; IPv6: `fe80::/10`). -/
def IPAddr.is_link_local : IPAddr → Bool
  | .v4 ip => inNet 32 ip 0xA9FE0000 16
  | .v6 ip => inNet 128 ip 0xfe800000000000000000000000000000 10

/-- `ip.is_reserved` (IPv4: `240.0.0.0/4`; IPv6: the reserved-network list). -/
def IPAddr.is_reserved : IPAddr → Bool
  | .v4 ip => inNet 32 ip 0xF0000000 4
  | .v6 ip => v6ReservedNets.any fun bp => inNet 128 ip bp.1 bp.2

/-- `ip.is_multicast` (IPv4: `224.0.0.0/4`; IPv6: `ff00::/8`). -/
def IPAddr.is_multicast : IPAddr → Bool
  | .v4 ip => inNet 32 ip 0xE0000000 4
  | .v6 ip => inNet 128 ip 0xff000000000000000000000000000000 8

/-! ## `urllib.parse.urlparse(...).hostname` model (Python 3.11 semantics)

`is_safe_url` uses only `urlparse(url).hostname`; the model below follows
CPython 3.11's `urlsplit` (leading C0-control/space strip, tab/CR/LF removal,
scheme split, netloc split at `/?#`, bracket validation including
`_check_bracketed_host`) and the `hostname` property (part after the last
`@`, before the port, lowercased up to a `%` zone separator).

One deliberate approximation: CPython's `_checknetloc` rejects only
non-ASCII netlocs whose NFKC normalization introduces `/?#@:`; Unicode
normalization is out of scope here, so the model conservatively treats every
non-ASCII netloc as a parse failure.  Both a parse failure and a rejected
netloc make `is_safe_url` return `False`, so the two sides agree on every
URL whose netloc is ASCII (all fixed hostname lists are ASCII). -/

/-- Characters stripped from the front of the URL
(`_WHATWG_C0_CONTROL_OR_SPACE`). -/
def isC0ControlOrSpace (c : Char) : Bool :=
  decide (c.toNat ≤ 32)

/-- `scheme_chars` from `urllib.parse`. -/
def schemeChars : List Char :=
  "abcdefghijklmnopqrstuvwxyzABCDEFGHIJKLMNOPQRSTUVWXYZ0123456789+-.".data

/-- The scheme-splitting step of `urlsplit`: drop `scheme:` when the part
before the first `:` is nonempty, starts with an ASCII letter and consists
only of scheme characters. -/
def stripScheme (l : List Char) : List Char :=
  let pre := l.takeWhile (fun c => c != ':')
  if pre.length < l.length && !pre.isEmpty &&
      (match pre.head? with
       | some c => decide (c.toNat ≤ 127) && c.isAlpha
       | none => false) &&
      pre.all (fun c => schemeChars.contains c) then
    l.drop (pre.length + 1)
  else l

/-- `_check_bracketed_host`: a bracketed host must be an IPvFuture literal
(`v` + hex digits + `.` + at least one char) or a valid IPv6 (not IPv4)
address. -/
def check_bracketed_host (h : String) : Bool :=
  match h.data with
  | 'v' :: rest =>
    let hex := rest.takeWhile isPyHexDigit
    let rem := rest.drop hex.length
    !hex.isEmpty &&
      (match rem with
       | '.' :: tail => !tail.isEmpty
       | _ => false)
  | _ =>
    match ip_address? h with
    | some (.v6 _) => true
    | _ => false

/-- The `hostname` property of a parse result, computed from the netloc:
take the part after the last `@`; inside `[...]` when a bracket opens,
otherwise up to the first `:`; `None` when empty; lowercase the part before
a `%` zone separator. -/
def hostnameOfNetloc (netloc : String) : Option String :=
  let hostinfo := afterLastChar '@' netloc
  let (_, haveBr, bracketed) := partitionChar '[' hostinfo
  let hostname :=
    if haveBr then (partitionChar ']' bracketed).1
    else (partitionChar ':' hostinfo).1
  if hostname.isEmpty then none
  else
    let (base, percent, zone) := partitionChar '%' hostname
    some (pyLower base ++ (if percent then "%" ++ zone else ""))

/-- `urlparse(url).hostname`: `.error ()` models `urlparse` raising
`ValueError`; `.ok none` models `hostname is None`. -/
def urlparse_hostname (url : String) : Except Unit (Option String) :=
  let cleaned := (url.data.dropWhile isC0ControlOrSpace).filter
    (fun c => c != '\t' && c != '\r' && c != '\n')
  let afterScheme := stripScheme cleaned
  if afterScheme.take 2 = ['/', '/'] then
    let netloc := (afterScheme.drop 2).takeWhile
      (fun c => c != '/' && c != '?' && c != '#')
    if (netloc.contains '[' && !netloc.contains ']') ||
        (netloc.contains ']' && !netloc.contains '[') then
      .error ()
    else if netloc.contains '[' && netloc.contains ']' then
      let bracketed := (partitionChar ']' (partitionChar '[' netloc.asString).2.2).1
      if check_bracketed_host bracketed then
        if netloc.all (fun c => decide (c.toNat ≤ 127)) then
          .ok (hostnameOfNetloc netloc.asString)
        else .error ()
      else .error ()
    else if netloc.all (fun c => decide (c.toNat ≤ 127)) then
      .ok (hostnameOfNetloc netloc.asString)
    else .error ()
  else .ok none

/-! ## `is_safe_url` / `is_safe_redirect` (package_docs.py lines 42-161) -/

/-- The fixed `blocked_hostnames` set of `is_safe_url`. -/
def blocked_hostnames : List String :=
  ["localhost", "localhost.localdomain", "127.0.0.1", "::1", "0.0.0.0",
   "metadata.google.internal", "metadata.google.com", "metadata"]

/-- `is_safe_url`: fail closed on unparseable/absent hostnames, reject the
fixed local/metadata hostnames, and reject literal IP addresses that are
private, loopback, link-local, reserved or multicast. -/
def is_safe_url (url : String) : Bool :=
  match urlparse_hostname url with
  | .error () => false
  | .ok none => false
  | .ok (some hostname) =>
    if blocked_hostnames.contains (pyLower hostname) then false
    else
      match ip_address? hostname with
      | some ip =>
        if ip.is_private then false
        else if ip.is_loopback then false
        else if ip.is_link_local then false
        else if ip.is_reserved then false
        else if ip.is_multicast then false
        else true
      | none => true

/-- `ALLOWED_REDIRECT_HOSTS` from package_docs.py. -/
def ALLOWED_REDIRECT_HOSTS : List String :=
  ["github.com", "raw.githubusercontent.com", "api.github.com",
   "packages.typst.org", "typst.app", "objects.githubusercontent.com"]

/-- `is_safe_redirect`: `is_safe_url` plus an allow-list check — the
(lowercased) hostname must equal an allowed host or end with `"." ++ host`. -/
def is_safe_redirect (url : String) : Bool :=
  if !is_safe_url url then false
  else
    match urlparse_hostname url with
    | .error () => false
    | .ok none => false
    | .ok (some hostname) =>
      if ALLOWED_REDIRECT_HOSTS.contains (pyLower hostname) then true
      else if ALLOWED_REDIRECT_HOSTS.any
          (fun a => strEndsWith (pyLower hostname) ("." ++ a)) then true
      else false

/-! ## `fetch_with_size_limit` (package_docs.py lines 227-285)

The HTTP client is modelled by the two requests the function can issue.
`none` for a request models the underlying call raising an `httpx.HTTPError`
(or, for HEAD, any of the exceptions the surrounding `try` catches).  The
`content-length` header is modelled as the already-parsed number when the
header is present and nonempty (the source parses the header string with
`int(...)`).  The body is a byte list; only its length is inspected. -/

structure HttpResponse where
  contentLengthHeader : Option Nat
  body : List Nat
  statusCode : Nat
deriving DecidableEq

structure HttpClient where
  headResult : String → Option HttpResponse
  getResult : String → Option HttpResponse

inductive HttpMethod where
  | head
  | get
deriving DecidableEq

inductive FetchErr where
  | sizeExceeded
  | transport
deriving DecidableEq

/-- Whether the HEAD-probe phase reaches its `raise ValueError("Response too
large ...")` statement: the HEAD succeeded, reported a Content-Length, and
that length exceeds `max_size`.  In the source this `raise` sits inside the
same `try` whose `except (httpx.HTTPError, ValueError): pass` swallows it,
so the flag has no effect on what `fetch_with_size_limit` does next. -/
def head_probe_flags_oversize (client : HttpClient) (url : String) (max_size : Nat) : Bool :=
  match client.headResult url with
  | none => false
  | some r =>
    match r.contentLengthHeader with
    | some size => decide (size > max_size)
    | none => false

/-- `fetch_with_size_limit`: HEAD probe (whose outcome is discarded by the
`except ... pass`), then the GET, then the post-transfer checks of the
declared Content-Length and the received byte count.  Returns the list of
requests issued together with the outcome. -/
def fetch_with_size_limit (client : HttpClient) (url : String) (max_size : Nat) :
    List (HttpMethod × String) × Except FetchErr HttpResponse :=
  match client.getResult url with
  | none => ([(HttpMethod.head, url), (HttpMethod.get, url)], .error .transport)
  | some response =>
    match response.contentLengthHeader with
    | some size =>
      if size > max_size then
        ([(HttpMethod.head, url), (HttpMethod.get, url)], .error .sizeExceeded)
      else if response.body.length > max_size then
        ([(HttpMethod.head, url), (HttpMethod.get, url)], .error .sizeExceeded)
      else ([(HttpMethod.head, url), (HttpMethod.get, url)], .ok response)
    | none =>
      if response.body.length > max_size then
        ([(HttpMethod.head, url), (HttpMethod.get, url)], .error .sizeExceeded)
      else ([(HttpMethod.head, url), (HttpMethod.get, url)], .ok response)

/-! ## `get_package_versions` (package_docs.py lines 389-433) -/

/-- One entry of the GitHub contents listing (the fields the code reads). -/
structure ContentsItem where
  name : String
  type : String
deriving DecidableEq

/-- Python string `<`: lexicographic comparison by code point. -/
def pyStrLt : List Char → List Char → Bool
  | [], [] => false
  | [], _ :: _ => true
  | _ :: _, [] => false
  | a :: as, b :: bs =>
    if a.toNat < b.toNat then true
    else if b.toNat < a.toNat then false
    else pyStrLt as bs

/-- Insert into a lexicographically descending list (used to model Python's
`sorted(versions, reverse=True)`, which orders version *strings*). -/
def insertDescending (x : String) : List String → List String
  | [] => [x]
  | y :: ys =>
    if pyStrLt x.data y.data then y :: insertDescending x ys else x :: y :: ys

/-- Python `sorted(l, reverse=True)` on strings. -/
def sortedReverse (l : List String) : List String :=
  l.foldr insertDescending []

/-- The listing-to-versions core of `get_package_versions`: keep the names
of the `"dir"` entries and sort them in reverse string order (the source
comments this `# Latest first`). -/
def get_package_versions_pure (contents : List ContentsItem) : List String :=
  sortedReverse ((contents.filter (fun i => i.type == "dir")).map (fun i => i.name))

/-- Semantic-version ordering, modelled from the spec: versions follow the
`MAJOR.MINOR.PATCH` grammar and "newest" compares the numeric components
left to right.  Used only to compare the code's string sort against the
spec's "newest first". -/
def semverParts (s : String) : List Nat :=
  (splitOnChar '.' s.data).map (fun p => p.foldl (fun acc c => acc * 10 + (c.toNat - 48)) 0)

/-- Lexicographic order on the numeric component lists. -/
def natListLt : List Nat → List Nat → Bool
  | [], [] => false
  | [], _ :: _ => true
  | _ :: _, [] => false
  | a :: as, b :: bs =>
    if a < b then true
    else if b < a then false
    else natListLt as bs

/-- `semverNewer a b`: `a` is a strictly newer version than `b` under the
spec's semantic-version order. -/
def semverNewer (a b : String) : Bool :=
  natListLt (semverParts b) (semverParts a)

/-! ## `build_package_docs` (package_docs.py lines 636-772)

Wall-clock time is modelled by a transport that states how long each remote
operation takes (`ℚ` seconds) and what it returns; `elapsed` is threaded
through the steps exactly in source order, and only remote operations
consume time.  An in-memory or on-disk cache hit for the requested
`package@version` key is modelled by the two `Option` arguments. -/

structure PackageDocs where
  package : String
  version : String
  metadata : Option String
  readme : Option String
  license : Option String
  changelog : Option String
  examples : Option (List (String × String × Nat))
  docsDir : Option (List (String × String))
deriving DecidableEq

structure DocTransport where
  fileTime : String → ℚ
  fileResult : String → Option String
  versionsTime : ℚ
  versionsResult : Option (List String)
  examplesTime : ℚ
  examplesResult : Option (List (String × String × Nat))
  docsTime : ℚ
  docsResult : Option (List (String × String))

inductive BuildErr where
  | validationError
  | versionsFailed
  | noVersions
  | timeout
deriving DecidableEq

inductive BuildEvent where
  | warnSkipOptional
  | opFetchExamples
  | opFetchDocs
deriving DecidableEq

/-- One `for name in [...]: x = fetch_file_from_github(...); if x: break`
loop: returns the elapsed time and the loop variable's final value.  The
loop stops early at the first truthy (nonempty) content; after the last
iteration the variable keeps that iteration's result even when falsy. -/
def tryNames (t : DocTransport) : List String → ℚ → ℚ × Option String
  | [], e => (e, none)
  | [n], e => (e + t.fileTime n, t.fileResult n)
  | n :: n2 :: rest, e =>
    let e1 := e + t.fileTime n
    match t.fileResult n with
    | some c => if c.isEmpty then tryNames t (n2 :: rest) e1 else (e1, some c)
    | none => tryNames t (n2 :: rest) e1

def readmeNames : List String := ["README.md", "readme.md", "Readme.md"]
def licenseNames : List String := ["LICENSE", "LICENSE.md", "LICENSE.txt"]
def changelogNames : List String := ["CHANGELOG.md", "CHANGELOG", "changelog.md", "HISTORY.md"]

/-- Elapsed wall-clock time from aggregation start (`e0` accounts for the
version-resolution fetch when no version was given) up to the 70%-budget
check: the `typst.toml` fetch plus the three filename-fallback loops. -/
def preOptionalElapsed (t : DocTransport) (e0 : ℚ) : ℚ :=
  (tryNames t changelogNames
    (tryNames t licenseNames
      (tryNames t readmeNames (e0 + t.fileTime "typst.toml")).1).1).1

/-- `build_package_docs`: validation, cache lookups, version resolution,
metadata/readme/license/changelog fetches, the 70%-of-budget check gating
the optional examples/docs phase, the final total-budget check, and the
assembled document.  Also returns the emitted warning/operation events.
The source performs the final `elapsed > timeout` check once, after either
branch of the 70% check; here that single check is written into both
branches with that branch's elapsed value (the skip branch consumes no
further modelled time), which is the same function. -/
def build_package_docs (t : DocTransport) (package_name : String)
    (version? : Option String) (timeout : ℚ)
    (memCache diskCache : Option PackageDocs) :
    Except BuildErr PackageDocs × List BuildEvent :=
  match validate_package_name package_name with
  | .error _ => (.error .validationError, [])
  | .ok package_name =>
    match version?.map validate_version with
    | some (.error _) => (.error .validationError, [])
    | _ =>
      match memCache with
      | some docs => (.ok docs, [])
      | none =>
        let resolved : Except BuildErr (ℚ × String) :=
          match version? with
          | some v => .ok (0, v)
          | none =>
            match t.versionsResult with
            | none => .error .versionsFailed
            | some [] => .error .noVersions
            | some (v :: _) => .ok (t.versionsTime, v)
        match resolved with
        | .error e => (.error e, [])
        | .ok (e0, version) =>
          match diskCache with
          | some docs => (.ok docs, [])
          | none =>
            let e1 := e0 + t.fileTime "typst.toml"
            let metadata := t.fileResult "typst.toml"
            let e2 := (tryNames t readmeNames e1).1
            let readme := (tryNames t readmeNames e1).2
            let e3 := (tryNames t licenseNames e2).1
            let license := (tryNames t licenseNames e2).2
            let e4 := (tryNames t changelogNames e3).1
            let changelog := (tryNames t changelogNames e3).2
            if e4 > timeout * (7 / 10) then
              if e4 > timeout then (.error .timeout, [BuildEvent.warnSkipOptional])
              else
                (.ok ⟨package_name, version, metadata, readme, license, changelog,
                      none, none⟩, [BuildEvent.warnSkipOptional])
            else
              if e4 + t.examplesTime + t.docsTime > timeout then
                (.error .timeout, [BuildEvent.opFetchExamples, BuildEvent.opFetchDocs])
              else
                (.ok ⟨package_name, version, metadata, readme, license, changelog,
                      t.examplesResult, t.docsResult⟩,
                 [BuildEvent.opFetchExamples, BuildEvent.opFetchDocs])

/-- The transport of end-to-end scenario D: every remote call takes 2
seconds; contents are absent. -/
def slowStubTransport : DocTransport where
  fileTime := fun _ => 2
  fileResult := fun _ => none
  versionsTime := 2
  versionsResult := some ["0.2.2"]
  examplesTime := 2
  examplesResult := none
  docsTime := 2
  docsResult := none

/-! ## `SandboxConfig` (sandbox.py lines 22-238)

`os.path.expanduser` and the platform-dependent inputs (system temp
directory, Typst cache directories) are modelled as parameters; the three
environment variables the constructor reads are an explicit record
(`none` = unset, `some s` = set to `s`).  The constructor returns the
configuration together with the diagnostic events `_load_custom_rules`
prints to stderr. -/

/-- `SandboxConfig.ALWAYS_DENY_READ` from sandbox.py. -/
def ALWAYS_DENY_READ : List String :=
  ["~/.ssh", "~/.aws", "~/.config/gcloud", "~/.config/gh", "~/.gnupg",
   "~/.kube", "~/.docker", ".env", ".git/config", "~/.netrc", "~/.npmrc",
   "~/.pypirc", "/etc/passwd", "/etc/shadow", "/etc/sudoers", "/etc/ssh",
   "/proc", "/sys", "/dev", "/run/secrets", "/var/run/secrets",
   "/var/run/docker.sock", "/run/docker.sock", "/Library/Keychains",
   "~/Library/Keychains", "~/.password-store", "~/.vault-token",
   "~/.config/op", "~/.config/hub", "~/.local/share/keyrings", "~/.secrets",
   "*.pem", "*.key", "*_rsa", "*_ed25519", "*_ecdsa"]

/-- The environment variables `_load_custom_rules` reads. -/
structure EnvVars where
  denyRead : Option String
  allowWrite : Option String
  allowDomains : Option String
deriving DecidableEq

/-- Python truthiness of `os.getenv(...)`: set and nonempty. -/
def envTruthy : Option String → Bool
  | none => false
  | some s => !s.isEmpty

structure SandboxConfig where
  temp_dir : String
  current_dir : String
  always_deny_read : List String
  read_whitelist_mode : Bool
  allow_read : Option (List String)
  deny_read : List String
  allow_write : List String
  allowed_domains : List String
deriving DecidableEq

inductive SandboxWarning where
  | customDenyRead (paths : List String)
  | allowWriteIgnored
  | allowDomainsIgnored
deriving DecidableEq

/-- `SandboxConfig.__init__` followed by `_load_custom_rules`: whitelist
mode iff a read allow-list was supplied; the always-denied set (expanded) is
the deny-read baseline in both modes; writes are always the fixed whitelist;
`TYPST_MCP_DENY_READ` adds deny paths in blacklist mode only;
`TYPST_MCP_ALLOW_WRITE` / `TYPST_MCP_ALLOW_DOMAINS` only trigger warnings
and are never read into the policy. -/
def SandboxConfig.init (temp_dir current_dir : String)
    (read_allow_only : Option (List String)) (expanduser : String → String)
    (system_temp_dir : String) (typst_cache_dirs : List String)
    (env : EnvVars) : SandboxConfig × List SandboxWarning :=
  let always_deny_read := ALWAYS_DENY_READ.map expanduser
  let read_whitelist_mode := read_allow_only.isSome
  let allow_read :=
    match read_allow_only with
    | some paths => some (paths.map expanduser)
    | none => none
  let deny_read := always_deny_read
  let allow_write := [current_dir, system_temp_dir, temp_dir] ++ typst_cache_dirs
  let allowed_domains := ["packages.typst.org", "*.github.com"]
  let (deny_read, w1) :=
    if read_whitelist_mode then (deny_read, [])
    else if envTruthy env.denyRead then
      let raw := (splitOnChar ',' (env.denyRead.getD "").data).map List.asString
      let paths := (raw.map pyStrip).filter (fun p => !p.isEmpty)
      let expanded := paths.map expanduser
      (deny_read ++ expanded, [SandboxWarning.customDenyRead expanded])
    else (deny_read, [])
  let w2 := if envTruthy env.allowWrite then [SandboxWarning.allowWriteIgnored] else []
  let w3 := if envTruthy env.allowDomains then [SandboxWarning.allowDomainsIgnored] else []
  (⟨temp_dir, current_dir, always_deny_read, read_whitelist_mode, allow_read,
    deny_read, allow_write, allowed_domains⟩, w1 ++ w2 ++ w3)

/-- The srt settings dictionary produced by `to_srt_settings`
(`allowRead = none` models the key being absent in blacklist mode). -/
structure SrtSettings where
  allowRead : Option (List String)
  denyRead : List String
  allowWrite : List String
  allowedDomains : List String
  deniedDomains : List String
deriving DecidableEq

/-- `SandboxConfig.to_srt_settings`: whitelist mode emits the allow-list
plus — always — the always-denied set as `denyRead`; blacklist mode emits
the accumulated deny list; writes are always the whitelist; the domain
deny-list is empty. -/
def SandboxConfig.to_srt_settings (c : SandboxConfig) : SrtSettings :=
  if c.read_whitelist_mode then
    ⟨c.allow_read, c.always_deny_read, c.allow_write, c.allowed_domains, []⟩
  else
    ⟨none, c.deny_read, c.allow_write, c.allowed_domains, []⟩

/-! ## `get_cached_package_docs` (package_docs.py lines 875-905)

The in-memory `_package_cache` dict is an association list; the on-disk
cache is a function from file name to what opening/parsing it yields.  The
cached JSON documents are an arbitrary type `α`.  The result records the
value returned, the in-memory cache afterwards, and the network requests
performed (the function's body contains no HTTP call, so that list is
constructed empty). -/

inductive DiskRead (α : Type) where
  | absent
  | unreadable
  | content (d : α)

structure CacheLookupResult (α : Type) where
  result : Option α
  memCacheAfter : List (String × α)
  networkRequests : List (HttpMethod × String)

/-- `get_cached_package_docs`: memory cache first (keyed
`"{package}@{version}"`), then the on-disk file
(`"{package}_{version}.json"`); a read/parse failure is caught, logged and
turned into `None`; a successful disk read is written back into the memory
cache; a miss everywhere is `None`, not an error. -/
def get_cached_package_docs {α : Type} (memCache : List (String × α))
    (disk : String → DiskRead α) (package_name version : String) :
    CacheLookupResult α :=
  match memCache.lookup (package_name ++ "@" ++ version) with
  | some docs => ⟨some docs, memCache, []⟩
  | none =>
    match disk (package_name ++ "_" ++ version ++ ".json") with
    | .content d => ⟨some d, (package_name ++ "@" ++ version, d) :: memCache, []⟩
    | .unreadable => ⟨none, memCache, []⟩
    | .absent => ⟨none, memCache, []⟩

/-- A server whose HEAD probe (and GET) reports Content-Length 2000000 for
every URL: the concrete input on which the HEAD probe flags an oversized
response. -/
def oversizedHeadClient : HttpClient where
  headResult := fun _ => some ⟨some 2000000, [], 200⟩
  getResult := fun _ => some ⟨some 2000000, [], 200⟩

/-! # Theorems -/

/-! ## Helper lemmas -/

/-- A nonempty pattern whose first character does not occur in `l` is not a
sublist of `l`. -/
theorem hasSublist_cons_false {d : Char} {ds l : List Char} (h : d ∉ l) :
    hasSublist (d :: ds) l = false := by
  induction l with
  | nil => rfl
  | cons c t ih =>
    have hdc : d ≠ c := fun hdc => h (hdc ▸ List.mem_cons_self c t)
    have h1 : List.isPrefixOf (d :: ds) (c :: t) = false := by
      show ((d == c) && List.isPrefixOf ds t) = false
      simp [hdc]
    have h2 : hasSublist (d :: ds) t = false :=
      ih (fun hm => h (List.mem_cons_of_mem c hm))
    show (List.isPrefixOf (d :: ds) (c :: t) || hasSublist (d :: ds) t) = false
    rw [h1, h2]
    rfl

/-- Every character of the pattern body's accepted lists lies in
`[a-z0-9-]`. -/
theorem packageNameCore_chars {l : List Char} (h : packageNameCore l = true) :
    ∀ c ∈ l, isLowerAlnum c = true ∨ c = '-' := by
  intro c hc
  unfold packageNameCore at h
  cases hd : l with
  | nil => rw [hd] at hc; cases hc
  | cons a rest =>
    rw [hd] at h hc
    simp only [Bool.and_eq_true] at h
    rcases List.mem_cons.mp hc with rfl | hmem
    · exact .inl h.1
    · have hall := (List.all_eq_true.mp h.2) c hmem
      by_cases hl : isLowerAlnum c = true
      · exact .inl hl
      · right
        rw [Bool.not_eq_true] at hl
        have hdash : (c == '-') = true := by simpa [hl] using hall
        simpa using hdash

/-- Membership passes through the trailing-newline strip, except possibly
for the stripped newline itself. -/
theorem mem_stripTrailingNewline_or {l : List Char} {c : Char} (hc : c ∈ l) :
    c ∈ stripTrailingNewline l ∨ c = '\n' := by
  unfold stripTrailingNewline
  by_cases hcond : l.getLast? = some '\n'
  · rw [if_pos hcond]
    have hne : l ≠ [] := by
      intro he
      rw [he] at hcond
      cases hcond
    have hlast : l.getLast hne = '\n' := by
      have heq := List.getLast?_eq_getLast_of_ne_nil hne
      rw [heq] at hcond
      exact Option.some.inj hcond
    have hsplit := List.dropLast_append_getLast hne
    rw [← hsplit] at hc
    rcases List.mem_append.mp hc with h1 | h2
    · exact .inl h1
    · right
      rw [← hlast]
      simpa using h2
  · rw [if_neg hcond]
    exact .inl hc

/-- The trailing-newline strip is the identity on lists whose characters
all lie in `[a-z0-9-]` (the last character cannot be a newline). -/
theorem stripTrailingNewline_eq_self {l : List Char}
    (h : ∀ c ∈ l, isLowerAlnum c = true ∨ c = '-') :
    stripTrailingNewline l = l := by
  unfold stripTrailingNewline
  rw [if_neg]
  intro hcond
  have hne : l ≠ [] := by
    intro he
    rw [he] at hcond
    cases hcond
  have hmem : ('\n' : Char) ∈ l := by
    have heq := List.getLast?_eq_getLast_of_ne_nil hne
    rw [heq] at hcond
    have hv := Option.some.inj hcond
    rw [← hv]
    exact List.getLast_mem hne
  rcases h _ hmem with h1 | h2
  · exact absurd h1 (by decide)
  · exact absurd h2 (by decide)

/-- A character outside `[a-z0-9-]` that is not the newline does not occur
in a string accepted by the source's regex check. -/
theorem not_mem_of_matchesPackageNameRe {s : String}
    (h : matchesPackageNameRe s = true) {c : Char}
    (h1 : isLowerAlnum c = false) (h2 : c ≠ '-') (h3 : c ≠ '\n') :
    c ∉ s.data := by
  intro hc
  rcases mem_stripTrailingNewline_or hc with hm | rfl
  · rcases packageNameCore_chars h c hm with hl | rfl
    · rw [h1] at hl; cases hl
    · exact h2 rfl
  · exact h3 rfl

/-- A string accepted by the source's regex check passes all three
path-traversal substring checks (none of `.`, `/`, `\` is in `[a-z0-9-]`
or is the newline). -/
theorem traversal_checks_false_of_matches {s : String}
    (h : matchesPackageNameRe s = true) :
    strContains s ".." = false ∧ strContains s "/" = false ∧
      strContains s "\\" = false := by
  refine ⟨?_, ?_, ?_⟩
  · exact hasSublist_cons_false
      (not_mem_of_matchesPackageNameRe h (by decide) (by decide) (by decide))
  · exact hasSublist_cons_false
      (not_mem_of_matchesPackageNameRe h (by decide) (by decide) (by decide))
  · exact hasSublist_cons_false
      (not_mem_of_matchesPackageNameRe h (by decide) (by decide) (by decide))

/-- A string in the spec's strict grammar is accepted by the source's
regex check (its last character is in `[a-z0-9-]`, so nothing is
stripped). -/
theorem matchesPackageNameRe_of_spec {s : String}
    (h : specPackageNameGrammar s = true) : matchesPackageNameRe s = true := by
  unfold specPackageNameGrammar at h
  unfold matchesPackageNameRe
  rw [stripTrailingNewline_eq_self (packageNameCore_chars h)]
  exact h

/-! ## C1: `validate_package_name` -/

/-- C1 (code bug).  The claim says every string outside the grammar
`^[a-z0-9][a-z0-9-]*$` fails with a `ValueError`, but Python `re.match`'s
`$` also matches just before a trailing newline: `"abc\n"` is outside the
grammar yet `validate_package_name` returns it unchanged (the traversal and
length checks do not catch the newline), contradicting the claim and the
function's own error message ("contain only lowercase letters, numbers,
and hyphens").  The rest of the claim holds: every string in the strict
grammar of length at most 100 is returned unchanged, and every string the
source's regex check rejects — and every over-long string — fails with a
`ValueError`. -/
theorem validate_package_name_trailing_newline :
    (specPackageNameGrammar "abc\n" = false
     ∧ validate_package_name "abc\n" = .ok "abc\n")
  ∧ (∀ s, specPackageNameGrammar s = true → s.length ≤ 100 →
       validate_package_name s = .ok s)
  ∧ (∀ s, matchesPackageNameRe s = false ∨ s.length > 100 →
       ∃ msg, validate_package_name s = .error msg) := by
  refine ⟨⟨by decide, by decide⟩, ?_, ?_⟩
  · intro s hspec hlen
    have hre : matchesPackageNameRe s = true := matchesPackageNameRe_of_spec hspec
    obtain ⟨h1, h2, h3⟩ := traversal_checks_false_of_matches hre
    unfold validate_package_name
    rw [hre, h1, h2, h3]
    simp only [Bool.not_true, Bool.or_self, Bool.false_eq_true, if_false]
    rw [if_neg (by omega)]
  · intro s hbad
    by_cases hre : matchesPackageNameRe s = true
    · rcases hbad with hfalse | hlen
      · rw [hre] at hfalse; cases hfalse
      · obtain ⟨h1, h2, h3⟩ := traversal_checks_false_of_matches hre
        refine ⟨"Package name too long (max 100 characters)", ?_⟩
        unfold validate_package_name
        rw [hre, h1, h2, h3]
        simp only [Bool.not_true, Bool.or_self, Bool.false_eq_true, if_false]
        rw [if_pos (by omega)]
    · refine ⟨"Invalid package name format", ?_⟩
      unfold validate_package_name
      rw [Bool.not_eq_true] at hre
      rw [hre]
      rfl

/-- Witness for C1: the two general halves at concrete inputs (`"cetz"`
accepted unchanged; `"ab..cd"` rejected). -/
theorem validate_package_name_trailing_newline_witness :
    validate_package_name "cetz" = .ok "cetz"
  ∧ ∃ msg, validate_package_name "ab..cd" = .error msg :=
  ⟨validate_package_name_trailing_newline.2.1 "cetz" (by decide) (by decide),
   validate_package_name_trailing_newline.2.2 "ab..cd" (.inl (by decide))⟩

/-! ## C2: `is_safe_url` -/

/-- C2.  `is_safe_url` returns `false` for every URL whose parsed host is a
literal IP address classified private, loopback, link-local, reserved or
multicast; for every URL whose parsed host is one of the fixed blocked
hostnames (localhost variants and cloud-metadata names); in particular for
every URL whose parsed host is `169.254.169.254`; and for every URL from
which no host can be parsed (absent hostname or a `ValueError` from
`urlparse`). -/
theorem is_safe_url_spec (url : String) :
    (∀ h ip, urlparse_hostname url = .ok (some h) → ip_address? h = some ip →
       (ip.is_private || ip.is_loopback || ip.is_link_local ||
         ip.is_reserved || ip.is_multicast) = true →
       is_safe_url url = false)
  ∧ (∀ h, urlparse_hostname url = .ok (some h) →
       pyLower h ∈ blocked_hostnames → is_safe_url url = false)
  ∧ (urlparse_hostname url = .ok (some "169.254.169.254") →
       is_safe_url url = false)
  ∧ ((urlparse_hostname url = .ok none ∨ urlparse_hostname url = .error ()) →
       is_safe_url url = false) := by
  have part1 : ∀ h ip, urlparse_hostname url = .ok (some h) →
      ip_address? h = some ip →
      (ip.is_private || ip.is_loopback || ip.is_link_local ||
        ip.is_reserved || ip.is_multicast) = true →
      is_safe_url url = false := by
    intro h ip hparse hip hbad
    unfold is_safe_url
    rw [hparse]
    split
    next heq => cases heq
    next heq => cases heq
    next hostname heq =>
      cases heq
      by_cases hb : blocked_hostnames.contains (pyLower h) = true
      · rw [hb]
        rfl
      · rw [Bool.not_eq_true] at hb
        rw [hb, hip, if_neg Bool.false_ne_true]
        split
        next ip2 heq2 =>
          cases heq2
          split_ifs with h1 h2 h3 h4 h5
          · rfl
          · rfl
          · rfl
          · rfl
          · rfl
          · exfalso
            simp only [Bool.or_eq_true] at hbad
            rcases hbad with ((((hp | hl) | hll) | hr) | hm)
            · exact h1 hp
            · exact h2 hl
            · exact h3 hll
            · exact h4 hr
            · exact h5 hm
        next heq2 => cases heq2
  refine ⟨part1, ?_, ?_, ?_⟩
  · intro h hparse hmem
    unfold is_safe_url
    rw [hparse]
    split
    next heq => cases heq
    next heq => cases heq
    next hostname heq =>
      cases heq
      have hb : blocked_hostnames.contains (pyLower h) = true :=
        List.elem_eq_true_of_mem hmem
      rw [hb]
      rfl
  · intro hparse
    exact part1 "169.254.169.254" (.v4 2852039166) hparse (by decide) (by decide)
  · rintro (hparse | hparse) <;> (unfold is_safe_url; rw [hparse])

/-- Witness for C2: the AWS/GCP metadata endpoint URL is rejected. -/
theorem is_safe_url_spec_witness :
    is_safe_url "http://169.254.169.254/latest/meta-data/" = false :=
  (is_safe_url_spec "http://169.254.169.254/latest/meta-data/").2.2.1 (by decide)

/-! ## C3: `is_safe_redirect` -/

/-- C3.  `is_safe_redirect` returns `false` for every URL whose parsed host
neither equals nor is a `.`-separated subdomain of a host in
`ALLOWED_REDIRECT_HOSTS` — in particular for the lookalike host
`github.com.evil.example` — and returns `true` for an outbound-safe URL
with host `objects.githubusercontent.com`. -/
theorem is_safe_redirect_spec (url : String) :
    (∀ h, urlparse_hostname url = .ok (some h) →
       (∀ a ∈ ALLOWED_REDIRECT_HOSTS,
          pyLower h ≠ a ∧ strEndsWith (pyLower h) ("." ++ a) = false) →
       is_safe_redirect url = false)
  ∧ is_safe_redirect "https://github.com.evil.example/typst/packages" = false
  ∧ (is_safe_url url = true →
     urlparse_hostname url = .ok (some "objects.githubusercontent.com") →
     is_safe_redirect url = true)
  ∧ is_safe_redirect "https://objects.githubusercontent.com/core/download" = true := by
  refine ⟨?_, by decide, ?_, by decide⟩
  case refine_2 =>
    intro hs hparse
    unfold is_safe_redirect
    rw [hs]
    simp only [Bool.not_true]
    rw [if_neg Bool.false_ne_true, hparse]
    split
    next heq => cases heq
    next heq => cases heq
    next hostname heq =>
      cases heq
      rw [show ALLOWED_REDIRECT_HOSTS.contains
        (pyLower "objects.githubusercontent.com") = true from by decide]
      rfl
  intro h hparse hfar
  have hcon : ALLOWED_REDIRECT_HOSTS.contains (pyLower h) = false := by
    rw [Bool.eq_false_iff]
    intro hc
    have hmem : pyLower h ∈ ALLOWED_REDIRECT_HOSTS :=
      List.mem_of_elem_eq_true hc
    exact (hfar _ hmem).1 rfl
  have hany : (ALLOWED_REDIRECT_HOSTS.any
      (fun a => strEndsWith (pyLower h) ("." ++ a))) = false := by
    rw [Bool.eq_false_iff]
    intro hc
    obtain ⟨a, hmem, hend⟩ := List.any_eq_true.mp hc
    rw [(hfar a hmem).2] at hend
    cases hend
  unfold is_safe_redirect
  by_cases hs : is_safe_url url = true
  · rw [hs]
    simp only [Bool.not_true]
    rw [if_neg Bool.false_ne_true, hparse]
    split
    next heq => cases heq
    next heq => cases heq
    next hostname heq =>
      cases heq
      rw [hcon, if_neg Bool.false_ne_true, hany, if_neg Bool.false_ne_true]
  · rw [Bool.not_eq_true] at hs
    rw [hs]
    rfl

/-- Witness for C3: a host unrelated to every allowed redirect host is
rejected. -/
theorem is_safe_redirect_spec_witness :
    is_safe_redirect "https://evil.example/redirect-target" = false :=
  (is_safe_redirect_spec "https://evil.example/redirect-target").1
    "evil.example" (by decide) (by decide)

/-! ## C4: the HEAD probe does not abort the fetch -/

/-- C4 (code bug).  With `max_bytes = 1000000` and a HEAD probe reporting
Content-Length 2000000, the probe flags the oversize — but
`fetch_with_size_limit` still issues the full GET (the `raise ValueError`
sits inside the `try` whose `except (httpx.HTTPError, ValueError): pass`
swallows it), and the failure only happens after the transfer, from the
post-GET checks.  The claim says the fetch aborts before the GET. -/
theorem fetch_head_probe_does_not_abort :
    head_probe_flags_oversize oversizedHeadClient "https://example.org/big" 1000000 = true
  ∧ (fetch_with_size_limit oversizedHeadClient "https://example.org/big" 1000000).1 =
      [(.head, "https://example.org/big"), (.get, "https://example.org/big")]
  ∧ (fetch_with_size_limit oversizedHeadClient "https://example.org/big" 1000000).2 =
      .error .sizeExceeded :=
  ⟨rfl, rfl, rfl⟩

/-! ## C5: the post-transfer size checks -/

/-- C5.  Whenever the GET response declares a Content-Length over
`max_size`, or its received body is longer than `max_size`,
`fetch_with_size_limit` fails with the size-exceeded error and never
returns the response as a success. -/
theorem fetch_size_cap_enforced (client : HttpClient) (url : String)
    (max_size : Nat) (r : HttpResponse) (hget : client.getResult url = some r)
    (hbig : (∃ n, r.contentLengthHeader = some n ∧ n > max_size) ∨
      r.body.length > max_size) :
    (fetch_with_size_limit client url max_size).2 = .error .sizeExceeded := by
  unfold fetch_with_size_limit
  rw [hget]
  split
  next heq => cases heq
  next response heq =>
    cases heq
    rcases hbig with ⟨n, hn, hlt⟩ | hlen
    · rw [hn]
      split
      next size heq2 =>
        cases heq2
        rw [if_pos hlt]
      next heq2 => cases heq2
    · split
      next size heq2 =>
        by_cases h1 : size > max_size
        · rw [if_pos h1]
        · rw [if_neg h1, if_pos hlen]
      next heq2 =>
        rw [if_pos hlen]

/-- Witness for C5: a response declaring 2000000 bytes against a 1000000
cap fails with the size error. -/
theorem fetch_size_cap_enforced_witness :
    (fetch_with_size_limit oversizedHeadClient "https://example.org/f" 1000000).2 =
      .error .sizeExceeded :=
  fetch_size_cap_enforced oversizedHeadClient "https://example.org/f" 1000000
    ⟨some 2000000, [], 200⟩ rfl (.inl ⟨2000000, rfl, by decide⟩)

/-! ## C6: version ordering -/

/-- C6 (code bug).  `get_package_versions` sorts the version directory
names as strings in reverse order.  On the claim's own example
(`0.2.0`/`0.2.1`/`0.2.2`) this coincides with newest-first, but for a
package with versions `0.9.0` and `0.10.0` the returned list starts with
`0.9.0` even though `0.10.0` is the newer version — so the result is not
"ordered newest first". -/
theorem get_package_versions_not_newest_first :
    get_package_versions_pure [⟨"0.10.0", "dir"⟩, ⟨"0.9.0", "dir"⟩] =
      ["0.9.0", "0.10.0"]
  ∧ semverNewer "0.10.0" "0.9.0" = true
  ∧ get_package_versions_pure
      [⟨"0.2.0", "dir"⟩, ⟨"0.2.2", "dir"⟩, ⟨"0.2.1", "dir"⟩,
       ⟨"README.md", "file"⟩] = ["0.2.2", "0.2.1", "0.2.0"] :=
  ⟨by decide, by decide, by decide⟩

/-! ## C7: the aggregation time budget -/

/-- C7.  During `build_package_docs` with total timeout `T` (no cached
document, explicit version): if more than 70% of `T` has elapsed before the
optional examples/docs phase, that phase is skipped — the only emitted
event is the skip warning (no examples/docs fetch happens) and any returned
document has both optional sections absent; whenever total elapsed time
after the optional phase exceeds `T` (in either branch), the whole call
fails with the timeout error; and concretely, a 1-second timeout against a
transport in which every call takes 2 seconds yields the timeout error. -/
theorem build_package_docs_time_budget (t : DocTransport) (p v : String)
    (timeout : ℚ) (hname : validate_package_name p = .ok p)
    (hver : validate_version v = .ok v) :
    (preOptionalElapsed t 0 > timeout * (7 / 10) →
       (build_package_docs t p (some v) timeout none none).2 =
         [BuildEvent.warnSkipOptional]
     ∧ ∀ d, (build_package_docs t p (some v) timeout none none).1 = .ok d →
         d.examples = none ∧ d.docsDir = none)
  ∧ (preOptionalElapsed t 0 > timeout * (7 / 10) →
     preOptionalElapsed t 0 > timeout →
       (build_package_docs t p (some v) timeout none none).1 = .error .timeout)
  ∧ (¬ preOptionalElapsed t 0 > timeout * (7 / 10) →
     preOptionalElapsed t 0 + t.examplesTime + t.docsTime > timeout →
       (build_package_docs t p (some v) timeout none none).1 = .error .timeout)
  ∧ (build_package_docs slowStubTransport "cetz" none 1 none none).1 =
      .error .timeout := by
  have hstub : (build_package_docs slowStubTransport "cetz" none 1 none none).1 =
      .error .timeout := by
    have hval : validate_package_name "cetz" = .ok "cetz" := by decide
    simp only [build_package_docs, hval, Option.map]
    norm_num [tryNames, slowStubTransport, readmeNames, licenseNames,
      changelogNames]
  refine ⟨fun hgt => ⟨?_, ?_⟩, fun hgt hover => ?_, fun hskip hover => ?_,
    hstub⟩
  · unfold preOptionalElapsed at hgt
    simp only [build_package_docs, hname, Option.map, hver]
    rw [if_pos hgt]
    split_ifs <;> rfl
  · intro d hd
    unfold preOptionalElapsed at hgt
    simp only [build_package_docs, hname, Option.map, hver] at hd
    rw [if_pos hgt] at hd
    split_ifs at hd
    have hd2 := Except.ok.inj hd
    subst hd2
    exact ⟨rfl, rfl⟩
  · unfold preOptionalElapsed at hgt hover
    simp only [build_package_docs, hname, Option.map, hver]
    rw [if_pos hgt, if_pos hover]
  · unfold preOptionalElapsed at hskip hover
    simp only [build_package_docs, hname, Option.map, hver]
    rw [if_neg hskip, if_pos hover]

/-- Witness for C7: end-to-end scenario D through the general statement. -/
theorem build_package_docs_time_budget_witness :
    (build_package_docs slowStubTransport "cetz" (some "0.2.2") 1 none none).1 =
      .error .timeout :=
  (build_package_docs_time_budget slowStubTransport "cetz" "0.2.2" 1
    (by decide) (by decide)).2.1
    (by norm_num [preOptionalElapsed, tryNames, slowStubTransport, readmeNames,
      licenseNames, changelogNames])
    (by norm_num [preOptionalElapsed, tryNames, slowStubTransport, readmeNames,
      licenseNames, changelogNames])

/-! ## C8: the always-denied set survives whitelist mode -/

/-- C8.  For every sandbox policy built in whitelist read mode, the srt
settings emitted by `to_srt_settings` list every (expanded) path of the
fixed always-denied set in `denyRead`, whatever allow-list paths were
supplied — no choice of `allowed_read_paths` can make an always-denied path
readable. -/
theorem whitelist_mode_always_denies (temp cur : String)
    (allowPaths : List String) (expanduser : String → String)
    (sysTemp : String) (cacheDirs : List String) (env : EnvVars)
    (p : String) (hp : p ∈ ALWAYS_DENY_READ) :
    expanduser p ∈
      ((SandboxConfig.init temp cur (some allowPaths) expanduser sysTemp
          cacheDirs env).1.to_srt_settings).denyRead := by
  simp only [SandboxConfig.init, SandboxConfig.to_srt_settings, Option.isSome]
  exact List.mem_map_of_mem expanduser hp

/-- Witness for C8: `~/.ssh` is in the deny-read list of a whitelist-mode
policy that allows reading everything under `/`. -/
theorem whitelist_mode_always_denies_witness :
    ("~/.ssh" : String) ∈
      ((SandboxConfig.init "/tmp/session" "/work" (some ["/"]) id "/tmp" []
          ⟨none, none, none⟩).1.to_srt_settings).denyRead :=
  whitelist_mode_always_denies "/tmp/session" "/work" ["/"] id "/tmp" []
    ⟨none, none, none⟩ "~/.ssh" (List.mem_cons_self _ _)

/-! ## C9: environment overrides never expand the policy -/

/-- C9 counterexample.  `TYPST_MCP_ALLOW_WRITE` set to the empty string is
set, yet no warning at all is emitted: the source tests Python truthiness
of `os.getenv(...)`, and the empty string is falsy. -/
theorem env_override_empty_string_no_warning :
    (SandboxConfig.init "/tmp/session" "/work" none id "/tmp" []
        ⟨none, some "", none⟩).2 = []
  ∧ SandboxWarning.allowWriteIgnored ∉
      (SandboxConfig.init "/tmp/session" "/work" none id "/tmp" []
        ⟨none, some "", none⟩).2 :=
  ⟨rfl, by decide⟩

/-- C9 (amended).  Two environments differing only in the write-path and
network-domain override variables produce identical `allow_write` and
`allowed_domains` (the overrides are never read into the policy); and
whenever either variable is set to a nonempty value, the corresponding
ignored-override warning is emitted. -/
theorem env_overrides_never_expand (temp cur : String)
    (rao : Option (List String)) (expanduser : String → String)
    (sysTemp : String) (cacheDirs : List String) (env env2 : EnvVars)
    (_hd : env.denyRead = env2.denyRead) :
    ((SandboxConfig.init temp cur rao expanduser sysTemp cacheDirs env).1.allow_write =
       (SandboxConfig.init temp cur rao expanduser sysTemp cacheDirs env2).1.allow_write
     ∧ (SandboxConfig.init temp cur rao expanduser sysTemp cacheDirs env).1.allowed_domains =
       (SandboxConfig.init temp cur rao expanduser sysTemp cacheDirs env2).1.allowed_domains)
  ∧ (envTruthy env.allowWrite = true →
       SandboxWarning.allowWriteIgnored ∈
         (SandboxConfig.init temp cur rao expanduser sysTemp cacheDirs env).2)
  ∧ (envTruthy env.allowDomains = true →
       SandboxWarning.allowDomainsIgnored ∈
         (SandboxConfig.init temp cur rao expanduser sysTemp cacheDirs env).2) := by
  refine ⟨⟨?_, ?_⟩, ?_, ?_⟩
  · cases rao <;> simp [SandboxConfig.init]
  · cases rao <;> simp [SandboxConfig.init]
  · intro hw
    simp only [SandboxConfig.init, hw]
    simp [List.mem_append]
  · intro hw
    simp only [SandboxConfig.init, hw]
    simp [List.mem_append]

/-- Witness for C9: with both override variables set to nonempty values,
the write-override warning is emitted. -/
theorem env_overrides_never_expand_witness :
    SandboxWarning.allowWriteIgnored ∈
      (SandboxConfig.init "/tmp/session" "/work" none id "/tmp" []
          ⟨none, some "/evil", some "evil.example"⟩).2 :=
  (env_overrides_never_expand "/tmp/session" "/work" none id "/tmp" []
      ⟨none, some "/evil", some "evil.example"⟩ ⟨none, none, none⟩ rfl).2.1
    (by decide)

/-! ## C10: the cache-only lookup -/

/-- C10.  `get_cached_package_docs` performs no network request; a hit in
the in-memory map is returned as-is; when both tiers miss, the result is
`none` with the memory cache unchanged (no exception); when the on-disk
file exists but cannot be read or parsed, the result is `none`; and a
successful on-disk read returns the document and writes it into the
in-memory map. -/
theorem get_cached_package_docs_spec {α : Type} (mem : List (String × α))
    (disk : String → DiskRead α) (p v : String) :
    (get_cached_package_docs mem disk p v).networkRequests = []
  ∧ (∀ d, mem.lookup (p ++ "@" ++ v) = some d →
      (get_cached_package_docs mem disk p v).result = some d)
  ∧ (mem.lookup (p ++ "@" ++ v) = none →
      disk (p ++ "_" ++ v ++ ".json") = .absent →
      (get_cached_package_docs mem disk p v).result = none
      ∧ (get_cached_package_docs mem disk p v).memCacheAfter = mem)
  ∧ (mem.lookup (p ++ "@" ++ v) = none →
      disk (p ++ "_" ++ v ++ ".json") = .unreadable →
      (get_cached_package_docs mem disk p v).result = none)
  ∧ (∀ d, mem.lookup (p ++ "@" ++ v) = none →
      disk (p ++ "_" ++ v ++ ".json") = .content d →
      (get_cached_package_docs mem disk p v).result = some d
      ∧ (get_cached_package_docs mem disk p v).memCacheAfter.lookup
          (p ++ "@" ++ v) = some d) := by
  refine ⟨?_, ?_, ?_, ?_, ?_⟩
  · unfold get_cached_package_docs
    cases hm : mem.lookup (p ++ "@" ++ v)
    · cases hdk : disk (p ++ "_" ++ v ++ ".json") <;> rfl
    · rfl
  · intro d hm
    unfold get_cached_package_docs
    rw [hm]
  · intro hm hdk
    unfold get_cached_package_docs
    rw [hm, hdk]
    exact ⟨rfl, rfl⟩
  · intro hm hdk
    unfold get_cached_package_docs
    rw [hm, hdk]
  · intro d hm hdk
    unfold get_cached_package_docs
    rw [hm, hdk]
    refine ⟨rfl, ?_⟩
    simp [List.lookup]

/-- Witness for C10: a disk-only entry is returned and written back to the
memory cache. -/
theorem get_cached_package_docs_spec_witness :
    (get_cached_package_docs ([] : List (String × Nat))
        (fun _ => .content 7) "cetz" "0.2.2").result = some 7 :=
  ((get_cached_package_docs_spec ([] : List (String × Nat))
      (fun _ => .content 7) "cetz" "0.2.2").2.2.2.2 7 rfl rfl).1

end TypstMcp
